import Mathlib

/-!
Shallow embedding of the RoraOS streaming chat-completion relay.

Sources embedded here:
* `express_server.js` (src/unnamed/part_000): the Express relay with the
  buffered endpoint `POST /api/chat`, the streaming endpoint
  `POST /api/chat/stream`, and the credential helper `getApiKey`.
* `regular_api.js` (src/unnamed/part_001): the client-side frame decoder
  `chatCompletionStream` (splits each read chunk on newlines, recognizes
  the prefix "data: ", breaks the per-chunk line loop on "[DONE]",
  extracts `parsed.content || parsed.choices?.[0]?.delta?.content || ""`).
* `react_useChat.tsx` (src/frontend): `sendStreamingRequest`, identical
  except that "[DONE]" is handled with `continue` instead of `break`.
* `agent_api.js` (src/basic): `agentChatStream`, identical to
  `chatCompletionStream` except that only `parsed.content || ""` is probed.

Strings are modelled as Lean `String`s (the streams in question are ASCII
SSE framing around JSON payloads); chunk boundaries of the upstream byte
stream are modelled as a `List String`, one entry per `read()` result, and
the model assumes chunk boundaries are preserved between the relay and its
client (TCP re-chunking is outside the embedding).
-/

/-- JavaScript JSON values, as produced by `JSON.parse`.  Numbers keep their
raw lexeme: none of the embedded code ever reads a numeric field of a
decoded record, so no numeric interpretation is needed. -/
inductive Json where
  | null
  | bool (b : Bool)
  | num (raw : String)
  | str (s : String)
  | arr (elems : List Json)
  | obj (fields : List (String × Json))

/-- Left brace character, written via its code point. -/
def lbraceC : Char := Char.ofNat 123

/-- Right brace character, written via its code point. -/
def rbraceC : Char := Char.ofNat 125

/-- Does the character list start with the given pattern?  Models
JavaScript's `String.prototype.startsWith` on the underlying characters. -/
def listStarts : List Char → List Char → Bool
  | _, [] => true
  | [], _ :: _ => false
  | c :: cs, p :: ps => c = p && listStarts cs ps

/-- Models `s.startsWith(pre)`. -/
def strStarts (s pre : String) : Bool := listStarts s.data pre.data

/-- Models `s.slice(n)` for the ASCII prefixes used here
(character count and UTF-16 unit count agree on them). -/
def strDrop (s : String) (n : Nat) : String := String.mk (s.data.drop n)

/-- Splits a character list at every newline.  Models JavaScript's
`chunk.split("\n")`: `"" ↦ [""]`, `"a\n" ↦ ["a", ""]`. -/
def splitCharsOnNl : List Char → List (List Char)
  | [] => [[]]
  | c :: rest =>
    if c = '\n' then [] :: splitCharsOnNl rest
    else
      match splitCharsOnNl rest with
      | [] => [[c]]
      | l :: ls => (c :: l) :: ls

/-- Models `chunk.split("\n")` on strings. -/
def splitLines (s : String) : List String := (splitCharsOnNl s.data).map String.mk

/-- Concatenation of a list of strings, in order; models the repeated
`fullContent += content` accumulation of the decoders. -/
def strConcat : List String → String
  | [] => ""
  | s :: rest => s ++ strConcat rest

/-! ### A model of `JSON.parse`

A recursive-descent parser for JSON, written with explicit fuel so that it
is structurally recursive and evaluates inside the kernel.  Restrictions
against full ECMA-404, none of which is exercised by the embedded code or
by the wire format it decodes: `\uXXXX` escapes are rejected rather than
decoded, and number lexemes are validated but kept as raw text. -/

/-- Skip JSON insignificant whitespace. -/
def skipWs : List Char → List Char
  | [] => []
  | c :: rest =>
    if c = ' ' ∨ c = '\n' ∨ c = '\t' ∨ c = '\r' then skipWs rest else c :: rest

/-- Translation of a JSON string escape character: the three literal
escapes map to themselves, the named control escapes map to their code
points (newline 10, tab 9, carriage return 13, backspace 8, form feed
12), anything else is rejected. -/
def escChar (e : Char) : Option Char :=
  if e = '"' ∨ e = '\\' ∨ e = '/' then some e
  else if e = 'n' then some (Char.ofNat 10)
  else if e = 't' then some (Char.ofNat 9)
  else if e = 'r' then some (Char.ofNat 13)
  else if e = 'b' then some (Char.ofNat 8)
  else if e = 'f' then some (Char.ofNat 12)
  else none

/-- Parse the body of a JSON string (after the opening quote), returning
the decoded characters and the remainder after the closing quote. -/
def parseStrChars : List Char → Option (List Char × List Char)
  | [] => none
  | c :: rest =>
    if c = '"' then some ([], rest)
    else if c = '\\' then
      match rest with
      | [] => none
      | e :: rest2 =>
        match escChar e with
        | none => none
        | some ch =>
          match parseStrChars rest2 with
          | none => none
          | some (s, r) => some (ch :: s, r)
    else
      match parseStrChars rest with
      | none => none
      | some (s, r) => some (c :: s, r)

/-- Is the character an ASCII digit? -/
def isDigitC (c : Char) : Bool := c.isDigit

/-- Take leading ASCII digits. -/
def takeDigits : List Char → List Char × List Char
  | [] => ([], [])
  | c :: rest =>
    if isDigitC c then
      match takeDigits rest with
      | (ds, r) => (c :: ds, r)
    else ([], c :: rest)

/-- Parse the integer part of a JSON number: `0` or a nonzero digit
followed by digits. -/
def parseIntChars : List Char → Option (List Char × List Char)
  | [] => none
  | c :: rest =>
    if c = '0' then some ([c], rest)
    else if isDigitC c then
      match takeDigits rest with
      | (ds, r) => some (c :: ds, r)
    else none

/-- Parse the optional fraction part of a JSON number. -/
def parseFracChars : List Char → Option (List Char × List Char)
  | '.' :: rest =>
    match takeDigits rest with
    | ([], _) => none
    | (ds, r) => some ('.' :: ds, r)
  | cs => some ([], cs)

/-- Parse the optional exponent part of a JSON number. -/
def parseExpChars : List Char → Option (List Char × List Char)
  | c :: rest =>
    if c = 'e' ∨ c = 'E' then
      match rest with
      | s :: rest2 =>
        if s = '+' ∨ s = '-' then
          match takeDigits rest2 with
          | ([], _) => none
          | (ds, r) => some (c :: s :: ds, r)
        else
          match takeDigits rest with
          | ([], _) => none
          | (ds, r) => some (c :: ds, r)
      | [] => none
    else some ([], c :: rest)
  | [] => some ([], [])

/-- Parse a full JSON number lexeme (after an optional leading minus has
already been noted by the caller). -/
def parseNumChars (cs : List Char) : Option (List Char × List Char) :=
  match parseIntChars cs with
  | none => none
  | some (int, r1) =>
    match parseFracChars r1 with
    | none => none
    | some (frac, r2) =>
      match parseExpChars r2 with
      | none => none
      | some (ex, r3) => some (int ++ frac ++ ex, r3)

/-- Parsing mode: a JSON value, the element list of a non-empty array
(consuming the closing bracket), or the member list of a non-empty object
(consuming the closing brace). -/
inductive PMode where
  | val
  | items
  | fields

/-- Result of one parsing-mode invocation. -/
inductive PRes where
  | v (j : Json)
  | items (l : List Json)
  | fields (l : List (String × Json))

/-- The recursive-descent core of the `JSON.parse` model, fuelled. -/
def parseM : Nat → PMode → List Char → Option (PRes × List Char)
  | 0, _, _ => none
  | Nat.succ f, PMode.val, cs =>
    match skipWs cs with
    | [] => none
    | c :: rest =>
      if c = '"' then
        match parseStrChars rest with
        | some (s, r) => some (PRes.v (Json.str (String.mk s)), r)
        | none => none
      else if c = lbraceC then
        match skipWs rest with
        | c2 :: r2 =>
          if c2 = rbraceC then some (PRes.v (Json.obj []), r2)
          else
            match parseM f PMode.fields (c2 :: r2) with
            | some (PRes.fields l, r) => some (PRes.v (Json.obj l), r)
            | _ => none
        | [] => none
      else if c = '[' then
        match skipWs rest with
        | c2 :: r2 =>
          if c2 = ']' then some (PRes.v (Json.arr []), r2)
          else
            match parseM f PMode.items (c2 :: r2) with
            | some (PRes.items l, r) => some (PRes.v (Json.arr l), r)
            | _ => none
        | [] => none
      else if c = 't' then
        match rest with
        | 'r' :: 'u' :: 'e' :: r => some (PRes.v (Json.bool true), r)
        | _ => none
      else if c = 'f' then
        match rest with
        | 'a' :: 'l' :: 's' :: 'e' :: r => some (PRes.v (Json.bool false), r)
        | _ => none
      else if c = 'n' then
        match rest with
        | 'u' :: 'l' :: 'l' :: r => some (PRes.v Json.null, r)
        | _ => none
      else if c = '-' then
        match parseNumChars rest with
        | some (lex, r) => some (PRes.v (Json.num (String.mk ('-' :: lex))), r)
        | none => none
      else if isDigitC c then
        match parseNumChars (c :: rest) with
        | some (lex, r) => some (PRes.v (Json.num (String.mk lex)), r)
        | none => none
      else none
  | Nat.succ f, PMode.items, cs =>
    match parseM f PMode.val cs with
    | some (PRes.v j, r) =>
      match skipWs r with
      | c :: r2 =>
        if c = ',' then
          match parseM f PMode.items r2 with
          | some (PRes.items l, r3) => some (PRes.items (j :: l), r3)
          | _ => none
        else if c = ']' then some (PRes.items [j], r2)
        else none
      | [] => none
    | _ => none
  | Nat.succ f, PMode.fields, cs =>
    match skipWs cs with
    | c :: rest =>
      if c = '"' then
        match parseStrChars rest with
        | some (k, r2) =>
          match skipWs r2 with
          | ':' :: r3 =>
            match parseM f PMode.val r3 with
            | some (PRes.v v, r4) =>
              match skipWs r4 with
              | c2 :: r5 =>
                if c2 = ',' then
                  match parseM f PMode.fields r5 with
                  | some (PRes.fields l, r6) =>
                    some (PRes.fields ((String.mk k, v) :: l), r6)
                  | _ => none
                else if c2 = rbraceC then
                  some (PRes.fields [(String.mk k, v)], r5)
                else none
              | [] => none
            | _ => none
          | _ => none
        | none => none
      else none
    | [] => none

/-- Models `JSON.parse(s)`: `some` on a valid document, `none` on a
`SyntaxError`. -/
def jsonParse (s : String) : Option Json :=
  match parseM (2 * s.data.length + 4) PMode.val s.data with
  | some (PRes.v j, r) => if skipWs r = [] then some j else none
  | _ => none

/-! ### JavaScript object field access -/

/-- Lookup of an object member; the last member with the key wins, as it
does for `JSON.parse` of an object with duplicate keys. -/
def lookupField : List (String × Json) → String → Option Json
  | [], _ => none
  | (k, v) :: rest, key =>
    match lookupField rest key with
    | some v2 => some v2
    | none => if k = key then some v else none

/-- Models `j.k` / `j?.k`: a member of an object, `none` (undefined)
otherwise. -/
def Json.getField : Json → String → Option Json
  | Json.obj fields, k => lookupField fields k
  | _, _ => none

/-- The string value of field `k`, with JavaScript's `||`-falsiness folded
in: an absent field (undefined) and the empty string both yield `""`.
The wire format decoded here carries its `content`, `error` and `model`
fields as JSON strings, so a non-string value is likewise modelled as not
contributing. -/
def strField (j : Json) (k : String) : String :=
  match j.getField k with
  | some (Json.str s) => s
  | _ => ""

/-! ### The frame decoders -/

/-- Models `parsed.choices?.[0]?.delta?.content` (as a string, `""` when
any link of the optional chain is undefined). -/
def choicesDeltaContent (parsed : Json) : String :=
  match parsed.getField "choices" with
  | some (Json.arr (c :: _)) =>
    match c.getField "delta" with
    | some d => strField d "content"
    | none => ""
  | _ => ""

/-- Models `parsed.content || parsed.choices?.[0]?.delta?.content || ""`
from `chatCompletionStream` (regular_api.js) and `sendStreamingRequest`
(react_useChat.tsx). -/
def extractContent (parsed : Json) : String :=
  let a := strField parsed "content"
  if a ≠ "" then a else choicesDeltaContent parsed

/-- Models `parsed.content || ""` from `agentChatStream` (agent_api.js). -/
def agentExtractContent (parsed : Json) : String := strField parsed "content"

/-- The inner `for (const line of lines)` loop of `chatCompletionStream`,
returning the content deltas it emits in order.  `[DONE]` executes
`break`: the remaining lines of this chunk are not processed. -/
def chatCompletionLineDeltas : List String → List String
  | [] => []
  | line :: rest =>
    if strStarts line "data: " then
      let data := strDrop line 6
      if data = "[DONE]" then []
      else
        match jsonParse data with
        | some parsed =>
          let content := extractContent parsed
          if content ≠ "" then content :: chatCompletionLineDeltas rest
          else chatCompletionLineDeltas rest
        | none => chatCompletionLineDeltas rest
    else chatCompletionLineDeltas rest

/-- The outer `while (true)` read loop of `chatCompletionStream`: each
read chunk is decoded and split on newlines independently (there is no
carry-over buffer between reads), and all chunks are consumed until the
byte source reports `done`. -/
def chatCompletionStreamDeltas : List String → List String
  | [] => []
  | chunk :: chunks =>
    chatCompletionLineDeltas (splitLines chunk) ++ chatCompletionStreamDeltas chunks

/-- The `fullContent` accumulator of `chatCompletionStream`. -/
def chatCompletionFullContent (chunks : List String) : String :=
  strConcat (chatCompletionStreamDeltas chunks)

/-- The inner line loop of `sendStreamingRequest` (react_useChat.tsx):
identical to `chatCompletionLineDeltas` except that `[DONE]` executes
`continue`, so the remaining lines of the chunk are still processed. -/
def sendStreamingLineDeltas : List String → List String
  | [] => []
  | line :: rest =>
    if strStarts line "data: " then
      let data := strDrop line 6
      if data = "[DONE]" then sendStreamingLineDeltas rest
      else
        match jsonParse data with
        | some parsed =>
          let content := extractContent parsed
          if content ≠ "" then content :: sendStreamingLineDeltas rest
          else sendStreamingLineDeltas rest
        | none => sendStreamingLineDeltas rest
    else sendStreamingLineDeltas rest

/-- The read loop of `sendStreamingRequest`. -/
def sendStreamingDeltas : List String → List String
  | [] => []
  | chunk :: chunks =>
    sendStreamingLineDeltas (splitLines chunk) ++ sendStreamingDeltas chunks

/-- The inner line loop of `agentChatStream` (agent_api.js): `break` on
`[DONE]` like `chatCompletionLineDeltas`, but only the top-level
`content` field is probed. -/
def agentChatLineDeltas : List String → List String
  | [] => []
  | line :: rest =>
    if strStarts line "data: " then
      let data := strDrop line 6
      if data = "[DONE]" then []
      else
        match jsonParse data with
        | some parsed =>
          let content := agentExtractContent parsed
          if content ≠ "" then content :: agentChatLineDeltas rest
          else agentChatLineDeltas rest
        | none => agentChatLineDeltas rest
    else agentChatLineDeltas rest

/-- The read loop of `agentChatStream`. -/
def agentChatStreamDeltas : List String → List String
  | [] => []
  | chunk :: chunks =>
    agentChatLineDeltas (splitLines chunk) ++ agentChatStreamDeltas chunks

/-! ### The Express relay (express_server.js)

The two chat endpoints are modelled as pure functions of the request
fields they read and of the upstream's reply, returning what they send to
the client together with the number of upstream calls issued.  The
streaming endpoint is modelled as the ordered trace of effects it applies
to the Express `res` object. -/

/-- Models `getApiKey(req)`:
`authHeader = req.headers["x-api-key"] || req.headers["authorization"]`,
then strip a `"Bearer "` prefix, else fall back to the default key.
A header is `some` its value when present; JavaScript `||` treats an
absent header (undefined) and an empty value as falsy. -/
def getApiKey (xApiKey authorization : Option String) (defaultKey : String) : String :=
  let authHeader : Option String :=
    match xApiKey with
    | some x => if x = "" then authorization else some x
    | none => authorization
  match authHeader with
  | some a =>
    if (a != "") && strStarts a "Bearer " then strDrop a 7
    else if a != "" then a else defaultKey
  | none => defaultKey

/-- Models the check `if (!messages || !Array.isArray(messages))` shared
by both chat endpoints: the request is rejected unless `messages` is an
array (any array, an empty one included). -/
def messagesValid : Option Json → Bool
  | some (Json.arr _) => true
  | _ => false

/-- Models the destructuring default `model = "gpt-4o"`. -/
def effectiveModel : Option String → String
  | some m => m
  | none => "gpt-4o"

/-- One JSON response sent by an endpoint: `res.status(n).json(body)`
(with `res.json(body)` carrying the default status 200). -/
structure ApiResponse where
  status : Nat
  body : Json

/-- The upstream's reply to the buffered axios call: a 2xx body, a
non-2xx status with a parsed body (axios rejects and fills
`error.response`), or a connection-level failure (no `error.response`). -/
inductive UpstreamReply where
  | success (body : Json)
  | httpError (status : Nat) (body : Json)
  | networkError

/-- Models the chain `response.data.choices[0].message.content` of the
buffered endpoint.  `none` is the thrown `TypeError` (missing `choices`,
empty `choices`, or a first choice without a usable `message`), which the
handler's `catch` turns into a 500; `some v` is the field value, with
`some none` for a `message` that lacks `content` (an undefined value that
`res.json` drops). -/
def bufferedExtract (body : Json) : Option (Option Json) :=
  match body.getField "choices" with
  | some (Json.arr (c :: _)) =>
    match c.getField "message" with
    | some Json.null => none
    | some m => some (m.getField "content")
    | none => none
  | _ => none

/-- Models `response.data.model || model`. -/
def respModel (body : Json) (reqModel : Option String) : String :=
  let m := strField body "model"
  if m ≠ "" then m else effectiveModel reqModel

/-- The `content` entry of the buffered success response; an undefined
value is dropped by `res.json`. -/
def contentFieldEntry : Option Json → List (String × Json)
  | some v => [("content", v)]
  | none => []

/-- The `usage` entry of the buffered success response
(`usage: response.data.usage`, dropped when undefined). -/
def usageField (body : Json) : List (String × Json) :=
  match body.getField "usage" with
  | some u => [("usage", u)]
  | none => []

/-- Models `error.response.data.error || "API request failed"`. -/
def errorBodyText (body : Json) : String :=
  let e := strField body "error"
  if e ≠ "" then e else "API request failed"

/-- The `POST /api/chat` handler: the response sent to the client and the
number of upstream calls issued. -/
def chatHandler (messages : Option Json) (reqModel : Option String)
    (upstream : UpstreamReply) : ApiResponse × Nat :=
  if messagesValid messages then
    match upstream with
    | UpstreamReply.success body =>
      match bufferedExtract body with
      | some contentVal =>
        (⟨200, Json.obj (contentFieldEntry contentVal ++
            [("model", Json.str (respModel body reqModel))] ++ usageField body)⟩, 1)
      | none => (⟨500, Json.obj [("error", Json.str "Internal server error")]⟩, 1)
    | UpstreamReply.httpError st ebody =>
      (⟨st, Json.obj [("error", Json.str (errorBodyText ebody))]⟩, 1)
    | UpstreamReply.networkError =>
      (⟨500, Json.obj [("error", Json.str "Internal server error")]⟩, 1)
  else
    (⟨400, Json.obj [("error", Json.str "messages array is required")]⟩, 0)

/-- Events delivered by the upstream byte stream (`response.data`) of the
streaming endpoint. -/
inductive StreamEvent where
  | chunk (data : String)
  | finished
  | errored

/-- Ordered effects the streaming handler applies to `res`. -/
inductive ResAction where
  | setHeader (name value : String)
  | statusSet (code : Nat)
  | jsonBody (body : Json)
  | write (data : String)
  | closeResponse

/-- The reply to the streaming axios call. -/
inductive StreamUpstreamReply where
  | success (events : List StreamEvent)
  | httpError (status : Nat) (body : Json)
  | networkError

/-- The three `res.setHeader` calls made before the upstream request. -/
def sseHeaders : List ResAction :=
  [ResAction.setHeader "Content-Type" "text/event-stream",
   ResAction.setHeader "Cache-Control" "no-cache",
   ResAction.setHeader "Connection" "keep-alive"]

/-- The `data` / `end` / `error` event handlers attached to the upstream
stream: every chunk is forwarded verbatim with `res.write(chunk)`, and
both normal end and a mid-stream error just `res.end()` the response. -/
def eventActions : StreamEvent → List ResAction
  | StreamEvent.chunk d => [ResAction.write d]
  | StreamEvent.finished => [ResAction.closeResponse]
  | StreamEvent.errored => [ResAction.closeResponse]

/-- The streaming endpoint's `catch` block:
`if (!res.headersSent) res.status(500).json(...) else res.end()`. -/
def streamCatchActions (headersSent : Bool) : List ResAction :=
  if headersSent then [ResAction.closeResponse]
  else [ResAction.statusSet 500, ResAction.jsonBody (Json.obj [("error", Json.str "Internal server error")])]

/-- The `POST /api/chat/stream` handler: the trace of effects on `res`
and the number of upstream calls issued.  When the axios call rejects,
nothing has been written yet (`res.setHeader` alone does not send
headers), so the `catch` runs with `headersSent = false`. -/
def streamHandler (messages : Option Json) (upstream : StreamUpstreamReply) :
    List ResAction × Nat :=
  if messagesValid messages then
    match upstream with
    | StreamUpstreamReply.success events =>
      (sseHeaders ++ (events.map eventActions).flatten, 1)
    | StreamUpstreamReply.httpError _ _ => (sseHeaders ++ streamCatchActions false, 1)
    | StreamUpstreamReply.networkError => (sseHeaders ++ streamCatchActions false, 1)
  else
    ([ResAction.statusSet 400, ResAction.jsonBody (Json.obj [("error", Json.str "messages array is required")])], 0)

/-- The chunks written to the client, in order. -/
def writesOf : List ResAction → List String
  | [] => []
  | ResAction.write d :: rest => d :: writesOf rest
  | _ :: rest => writesOf rest

/-- Is the action part of a structured JSON error response
(`res.status(...).json(...)`)? -/
def isStructuredError : ResAction → Bool
  | ResAction.statusSet _ => true
  | ResAction.jsonBody _ => true
  | _ => false

/-! ### Shared helper lemmas -/

theorem listStarts_append (p s : List Char) : listStarts (p ++ s) p = true := by
  induction p with
  | nil => cases s <;> rfl
  | cons c cs ih => simp [listStarts, ih]

theorem strStarts_append (p s : String) : strStarts (p ++ s) p = true := by
  have h : (p ++ s).data = p.data ++ s.data := rfl
  rw [strStarts, h]
  exact listStarts_append p.data s.data

theorem listStarts_decomp (l p : List Char) (h : listStarts l p = true) :
    l = p ++ l.drop p.length := by
  induction p generalizing l with
  | nil => simp
  | cons c cs ih =>
    cases l with
    | nil => simp [listStarts] at h
    | cons x xs =>
      simp only [listStarts, Bool.and_eq_true, decide_eq_true_eq] at h
      obtain ⟨rfl, h2⟩ := h
      simpa using ih xs h2

theorem strDrop_append (p s : String) : strDrop (p ++ s) p.data.length = s := by
  apply String.ext
  show ((p ++ s).data.drop p.data.length) = s.data
  have h : (p ++ s).data = p.data ++ s.data := rfl
  rw [h, List.drop_left]

theorem dataLine_done (l : String) (hs : strStarts l "data: " = true)
    (hd : strDrop l 6 = "[DONE]") : l = "data: [DONE]" := by
  have h1 : l.data = "data: ".data ++ l.data.drop 6 := listStarts_decomp l.data "data: ".data hs
  have h2 : l.data.drop 6 = "[DONE]".data := congrArg String.data hd
  apply String.ext
  rw [h1, h2]
  rfl

theorem writesOf_append (a b : List ResAction) :
    writesOf (a ++ b) = writesOf a ++ writesOf b := by
  induction a with
  | nil => rfl
  | cons x xs ih => cases x <;> simp [writesOf, ih]

theorem strConcat_take_succ (l : List String) (k : Nat) :
    ∃ t, strConcat (l.take (k + 1)) = strConcat (l.take k) ++ t := by
  induction l generalizing k with
  | nil =>
    refine ⟨"", ?_⟩
    rw [List.take_nil, List.take_nil]
    rfl
  | cons x xs ih =>
    cases k with
    | zero => exact ⟨x ++ "", rfl⟩
    | succ k =>
      obtain ⟨t, ht⟩ := ih k
      refine ⟨t, ?_⟩
      show x ++ strConcat (xs.take (k + 1)) = x ++ strConcat (xs.take k) ++ t
      rw [ht, String.append_assoc]

theorem jsonParse_done_none : jsonParse "[DONE]" = none := rfl

/-! ### Claim theorems -/

/-- The claim's description of the `"Bearer "` handling: strip the
7-character prefix when present, otherwise use the value verbatim. -/
def stripBearer (s : String) : String :=
  if strStarts s "Bearer " then strDrop s 7 else s

/-- C10: the forwarded credential is chosen deterministically: the
`x-api-key` header takes precedence over `Authorization`; a `"Bearer "`
prefix of the chosen value is stripped, otherwise the value is used
verbatim; with neither header present the process-wide default key is
used.  (Header values, when present, are non-empty, as HTTP header values
are.) -/
theorem c10_credential_selection (x a : Option String) (defaultKey : String)
    (hx : x ≠ some "") (ha : a ≠ some "") :
    (∀ s, x = some s → getApiKey x a defaultKey = stripBearer s) ∧
    (x = none → ∀ s, a = some s → getApiKey x a defaultKey = stripBearer s) ∧
    (x = none → a = none → getApiKey x a defaultKey = defaultKey) := by
  refine ⟨?_, ?_, ?_⟩
  · intro s hxs
    subst hxs
    have hs : ¬(s = "") := fun h => hx (by rw [h])
    by_cases hb : strStarts s "Bearer " = true <;>
      simp [getApiKey, stripBearer, hs, hb, bne]
  · intro hxn s has
    subst hxn
    subst has
    have hs : ¬(s = "") := fun h => ha (by rw [h])
    by_cases hb : strStarts s "Bearer " = true <;>
      simp [getApiKey, stripBearer, hs, hb, bne]
  · intro hxn han
    subst hxn
    subst han
    rfl

/-- Witness for C10 at concrete headers. -/
theorem c10_credential_selection_witness :
    getApiKey (some "Bearer secret-key") (some "other") "default-key" = "secret-key" ∧
    getApiKey none (some "Bearer tok") "default-key" = "tok" ∧
    getApiKey none none "default-key" = "default-key" := by
  refine ⟨?_, ?_, ?_⟩
  · have h := (c10_credential_selection (some "Bearer secret-key") (some "other")
      "default-key" (by decide) (by decide)).1 "Bearer secret-key" rfl
    rw [h]
    rfl
  · have h := (c10_credential_selection none (some "Bearer tok")
      "default-key" (by decide) (by decide)).2.1 rfl "Bearer tok" rfl
    rw [h]
    rfl
  · exact (c10_credential_selection none none "default-key"
      (by decide) (by decide)).2.2 rfl rfl

/-- C2 counterexample: an empty `messages` array passes the
`!messages || !Array.isArray(messages)` check, so both endpoints issue
the upstream call (count 1) and do not respond 400, contradicting the
claim that an empty array yields InvalidRequest with zero upstream
calls. -/
theorem c2_counterexample :
    (chatHandler (some (Json.arr [])) none UpstreamReply.networkError).2 = 1 ∧
    (chatHandler (some (Json.arr [])) none UpstreamReply.networkError).1.status ≠ 400 ∧
    (streamHandler (some (Json.arr [])) StreamUpstreamReply.networkError).2 = 1 := by
  refine ⟨rfl, ?_, rfl⟩
  show (500 : Nat) ≠ 400
  decide

/-- C2 (amended): a `messages` field that is absent or not an array makes
both endpoints respond 400 `messages array is required` with zero
upstream calls; any array — the empty array included — passes the check,
and validity is exactly "is an array". -/
theorem c2_validation_rejects_only_non_arrays :
    (∀ messages reqModel up upS, messagesValid messages = false →
      chatHandler messages reqModel up =
        (⟨400, Json.obj [("error", Json.str "messages array is required")]⟩, 0) ∧
      streamHandler messages upS =
        ([ResAction.statusSet 400,
          ResAction.jsonBody (Json.obj [("error", Json.str "messages array is required")])], 0)) ∧
    (∀ elems, messagesValid (some (Json.arr elems)) = true) ∧
    (∀ messages, messagesValid messages = false ↔ ∀ elems, messages ≠ some (Json.arr elems)) := by
  refine ⟨?_, ?_, ?_⟩
  · intro messages reqModel up upS h
    constructor <;> simp [chatHandler, streamHandler, h]
  · intro elems
    rfl
  · intro messages
    cases messages with
    | none => simp [messagesValid]
    | some j =>
      cases j <;> simp [messagesValid]

/-- Witness for C2 (amended) at concrete inputs. -/
theorem c2_validation_witness :
    chatHandler none none UpstreamReply.networkError =
      (⟨400, Json.obj [("error", Json.str "messages array is required")]⟩, 0) ∧
    streamHandler none StreamUpstreamReply.networkError =
      ([ResAction.statusSet 400,
        ResAction.jsonBody (Json.obj [("error", Json.str "messages array is required")])], 0) ∧
    messagesValid (some (Json.arr [])) = true := by
  have h := c2_validation_rejects_only_non_arrays.1 none none
    UpstreamReply.networkError StreamUpstreamReply.networkError rfl
  exact ⟨h.1, h.2, c2_validation_rejects_only_non_arrays.2.1 []⟩

/-- C5 counterexample: on an upstream 429 `rate limited` rejection, the
streaming endpoint does not surface status 429 or the upstream body; its
`catch` (headers not yet sent) responds 500 `Internal server error`. -/
theorem c5_counterexample :
    (streamHandler (some (Json.arr [Json.obj [("role", Json.str "user"), ("content", Json.str "hi")]]))
        (StreamUpstreamReply.httpError 429 (Json.obj [("error", Json.str "rate limited")]))).1 =
      sseHeaders ++ [ResAction.statusSet 500,
        ResAction.jsonBody (Json.obj [("error", Json.str "Internal server error")])] ∧
    ResAction.statusSet 429 ∉
      (streamHandler (some (Json.arr [Json.obj [("role", Json.str "user"), ("content", Json.str "hi")]]))
        (StreamUpstreamReply.httpError 429 (Json.obj [("error", Json.str "rate limited")]))).1 := by
  refine ⟨rfl, ?_⟩
  intro h
  simp [streamHandler, sseHeaders, streamCatchActions, messagesValid] at h

/-- C5 (amended): on a pre-stream upstream rejection the buffered endpoint
passes the upstream status and error text through to the client, while the
streaming endpoint substitutes the generic 500 `Internal server error`
response. -/
theorem c5_passthrough_buffered_only (messages : Option Json) (reqModel : Option String)
    (st : Nat) (ebody : Json) (hval : messagesValid messages = true) :
    chatHandler messages reqModel (UpstreamReply.httpError st ebody) =
      (⟨st, Json.obj [("error", Json.str (errorBodyText ebody))]⟩, 1) ∧
    streamHandler messages (StreamUpstreamReply.httpError st ebody) =
      (sseHeaders ++ [ResAction.statusSet 500,
        ResAction.jsonBody (Json.obj [("error", Json.str "Internal server error")])], 1) := by
  constructor <;> simp [chatHandler, streamHandler, hval, streamCatchActions]

/-- Witness for C5 (amended): the stub 429 `rate limited` upstream. -/
theorem c5_passthrough_witness :
    chatHandler (some (Json.arr [])) none
        (UpstreamReply.httpError 429 (Json.obj [("error", Json.str "rate limited")])) =
      (⟨429, Json.obj [("error", Json.str "rate limited")]⟩, 1) ∧
    streamHandler (some (Json.arr []))
        (StreamUpstreamReply.httpError 429 (Json.obj [("error", Json.str "rate limited")])) =
      (sseHeaders ++ [ResAction.statusSet 500,
        ResAction.jsonBody (Json.obj [("error", Json.str "Internal server error")])], 1) := by
  have h := c5_passthrough_buffered_only (some (Json.arr [])) none 429
    (Json.obj [("error", Json.str "rate limited")]) rfl
  exact ⟨h.1.trans (by rfl), h.2⟩

/-- One step of the `chatCompletionStream` line loop on a well-prefixed
record that is not the end sentinel. -/
theorem chatCompletion_step (data : String) (rest : List String) (hne : ¬data = "[DONE]") :
    chatCompletionLineDeltas (("data: " ++ data) :: rest) =
      match jsonParse data with
      | some parsed =>
        if extractContent parsed ≠ "" then extractContent parsed :: chatCompletionLineDeltas rest
        else chatCompletionLineDeltas rest
      | none => chatCompletionLineDeltas rest := by
  have h1 : strStarts ("data: " ++ data) "data: " = true := strStarts_append _ _
  have h2 : strDrop ("data: " ++ data) 6 = data := strDrop_append "data: " data
  simp [chatCompletionLineDeltas, h1, h2, hne]

/-- One step of the `sendStreamingRequest` line loop on a well-prefixed
record that is not the end sentinel. -/
theorem sendStreaming_step (data : String) (rest : List String) (hne : ¬data = "[DONE]") :
    sendStreamingLineDeltas (("data: " ++ data) :: rest) =
      match jsonParse data with
      | some parsed =>
        if extractContent parsed ≠ "" then extractContent parsed :: sendStreamingLineDeltas rest
        else sendStreamingLineDeltas rest
      | none => sendStreamingLineDeltas rest := by
  have h1 : strStarts ("data: " ++ data) "data: " = true := strStarts_append _ _
  have h2 : strDrop ("data: " ++ data) 6 = data := strDrop_append "data: " data
  simp [sendStreamingLineDeltas, h1, h2, hne]

/-- One step of the `agentChatStream` line loop on a well-prefixed record
that is not the end sentinel. -/
theorem agentChat_step (data : String) (rest : List String) (hne : ¬data = "[DONE]") :
    agentChatLineDeltas (("data: " ++ data) :: rest) =
      match jsonParse data with
      | some parsed =>
        if agentExtractContent parsed ≠ "" then agentExtractContent parsed :: agentChatLineDeltas rest
        else agentChatLineDeltas rest
      | none => agentChatLineDeltas rest := by
  have h1 : strStarts ("data: " ++ data) "data: " = true := strStarts_append _ _
  have h2 : strDrop ("data: " ++ data) 6 = data := strDrop_append "data: " data
  simp [agentChatLineDeltas, h1, h2, hne]

/-- C3 (code bug): the decoder is not fragmentation-invariant.  The byte
stream `data: {"content":"Hel"}\ndata: {"content":"lo"}\ndata: [DONE]\n`
yields the deltas `Hel`, `lo` when it arrives in one read, but loses the
delta `Hel` when a chunk boundary falls mid-record, because each read
chunk is split on newlines with no carry-over buffer: the truncated
`data: {"content":"Hel` fails `JSON.parse` and is skipped, and the
continuation `"}` lacks the `data: ` prefix and is skipped too. -/
theorem c3_fragmentation_dependence :
    chatCompletionStreamDeltas
        ["data: \x7b\"content\":\"Hel\"\x7d\ndata: \x7b\"content\":\"lo\"\x7d\ndata: [DONE]\n"] =
      ["Hel", "lo"] ∧
    chatCompletionStreamDeltas
        ["data: \x7b\"content\":\"Hel", "\"\x7d\ndata: \x7b\"content\":\"lo\"\x7d\ndata: [DONE]\n"] =
      ["lo"] ∧
    "data: \x7b\"content\":\"Hel" ++ "\"\x7d\ndata: \x7b\"content\":\"lo\"\x7d\ndata: [DONE]\n" =
      "data: \x7b\"content\":\"Hel\"\x7d\ndata: \x7b\"content\":\"lo\"\x7d\ndata: [DONE]\n" :=
  ⟨rfl, rfl, rfl⟩

/-- C4 counterexample: after the `[DONE]` record is observed (first
chunk), the read loop still consumes the next chunk and emits its delta
`X`, contradicting the claimed immediate termination with no further
deltas and no further reads. -/
theorem c4_counterexample :
    chatCompletionStreamDeltas ["data: [DONE]\n", "data: \x7b\"content\":\"X\"\x7d\n"] = ["X"] :=
  rfl

/-- C4 (amended): `[DONE]` only breaks the per-chunk line loop of
`chatCompletionStream` — lines after it in the same chunk are dropped,
but subsequent chunks are still read and their deltas emitted — and in
`sendStreamingRequest` it is merely skipped, with even the same chunk's
remaining lines still processed. -/
theorem c4_done_scope :
    (∀ ls1 ls2, "data: [DONE]" ∉ ls1 →
      chatCompletionLineDeltas (ls1 ++ "data: [DONE]" :: ls2) = chatCompletionLineDeltas ls1) ∧
    (∀ chunks, chatCompletionStreamDeltas ("data: [DONE]\n" :: chunks) =
      chatCompletionStreamDeltas chunks) ∧
    (∀ ls1 ls2, sendStreamingLineDeltas (ls1 ++ "data: [DONE]" :: ls2) =
      sendStreamingLineDeltas ls1 ++ sendStreamingLineDeltas ls2) := by
  refine ⟨?_, ?_, ?_⟩
  · intro ls1 ls2 hmem
    induction ls1 with
    | nil => rfl
    | cons l ls ih =>
      have hl : ¬l = "data: [DONE]" := fun h => hmem (by rw [h]; exact List.mem_cons_self _ _)
      have hls : "data: [DONE]" ∉ ls := fun h => hmem (List.mem_cons_of_mem _ h)
      by_cases hs : strStarts l "data: " = true
      · by_cases hd : strDrop l 6 = "[DONE]"
        · exact absurd (dataLine_done l hs hd) hl
        · cases hp : jsonParse (strDrop l 6) with
          | none => simp [chatCompletionLineDeltas, hs, hd, hp, ih hls]
          | some parsed =>
            by_cases hc : extractContent parsed = "" <;>
              simp [chatCompletionLineDeltas, hs, hd, hp, hc, ih hls]
      · simp [chatCompletionLineDeltas, hs, ih hls]
  · intro chunks
    rfl
  · intro ls1 ls2
    induction ls1 with
    | nil => rfl
    | cons l ls ih =>
      by_cases hs : strStarts l "data: " = true
      · by_cases hd : strDrop l 6 = "[DONE]"
        · simp [sendStreamingLineDeltas, hs, hd, ih]
        · cases hp : jsonParse (strDrop l 6) with
          | none => simp [sendStreamingLineDeltas, hs, hd, hp, ih]
          | some parsed =>
            by_cases hc : extractContent parsed = "" <;>
              simp [sendStreamingLineDeltas, hs, hd, hp, hc, ih]
      · simp [sendStreamingLineDeltas, hs, ih]

/-- Witness for C4 (amended) at concrete line lists. -/
theorem c4_done_scope_witness :
    chatCompletionLineDeltas
        (["data: \x7b\"content\":\"A\"\x7d"] ++ "data: [DONE]" :: ["data: \x7b\"content\":\"B\"\x7d"]) =
      ["A"] ∧
    chatCompletionStreamDeltas ("data: [DONE]\n" :: ["data: \x7b\"content\":\"B\"\x7d\n"]) = ["B"] ∧
    sendStreamingLineDeltas
        (["data: \x7b\"content\":\"A\"\x7d"] ++ "data: [DONE]" :: ["data: \x7b\"content\":\"B\"\x7d"]) =
      ["A", "B"] := by
  refine ⟨?_, ?_, ?_⟩
  · have h := c4_done_scope.1 ["data: \x7b\"content\":\"A\"\x7d"]
      ["data: \x7b\"content\":\"B\"\x7d"] (by decide)
    exact h.trans (by rfl)
  · exact (c4_done_scope.2.1 ["data: \x7b\"content\":\"B\"\x7d\n"]).trans (by rfl)
  · have h := c4_done_scope.2.2 ["data: \x7b\"content\":\"A\"\x7d"]
      ["data: \x7b\"content\":\"B\"\x7d"]
    exact h.trans (by rfl)

/-- C6 counterexample: a significant record whose payload carries the
delta at `choices[0].delta.content` produces no delta at all in
`agentChatStream` (one of the claim's cited decoders): it probes only the
top-level `content` field, even though the other decoders extract `x`
from the very same record. -/
theorem c6_counterexample :
    agentChatStreamDeltas
        ["data: \x7b\"choices\":[\x7b\"delta\":\x7b\"content\":\"x\"\x7d\x7d]\x7d\n"] = [] ∧
    chatCompletionStreamDeltas
        ["data: \x7b\"choices\":[\x7b\"delta\":\x7b\"content\":\"x\"\x7d\x7d]\x7d\n"] = ["x"] ∧
    choicesDeltaContent
        (Json.obj [("choices", Json.arr [Json.obj [("delta", Json.obj [("content", Json.str "x")])]])]) =
      "x" :=
  ⟨rfl, rfl, rfl⟩

/-- C6 (amended): in `chatCompletionStream` and `sendStreamingRequest`
the delta text is `parsed.content` when that is a non-empty string, else
`parsed.choices?.[0]?.delta?.content`, and an empty final extraction is
skipped (no delta emitted) while a non-empty one is emitted;
`agentChatStream`, however, probes only the top-level `content` field. -/
theorem c6_extraction_rules :
    (∀ j, strField j "content" ≠ "" → extractContent j = strField j "content") ∧
    (∀ j, strField j "content" = "" → extractContent j = choicesDeltaContent j) ∧
    (∀ j, agentExtractContent j = strField j "content") ∧
    (∀ data parsed rest, jsonParse data = some parsed → extractContent parsed = "" →
      chatCompletionLineDeltas (("data: " ++ data) :: rest) = chatCompletionLineDeltas rest) ∧
    (∀ data parsed rest, jsonParse data = some parsed → extractContent parsed ≠ "" →
      chatCompletionLineDeltas (("data: " ++ data) :: rest) =
        extractContent parsed :: chatCompletionLineDeltas rest) := by
  refine ⟨?_, ?_, ?_, ?_, ?_⟩
  · intro j h
    simp [extractContent, h]
  · intro j h
    simp [extractContent, h]
  · intro j
    rfl
  · intro data parsed rest hp hc
    have hne : ¬data = "[DONE]" := by
      intro h
      rw [h, jsonParse_done_none] at hp
      exact Option.noConfusion hp
    rw [chatCompletion_step data rest hne, hp]
    simp [hc]
  · intro data parsed rest hp hc
    have hne : ¬data = "[DONE]" := by
      intro h
      rw [h, jsonParse_done_none] at hp
      exact Option.noConfusion hp
    rw [chatCompletion_step data rest hne, hp]
    simp [hc]

/-- Witness for C6 (amended) at concrete payloads. -/
theorem c6_extraction_rules_witness :
    extractContent (Json.obj [("content", Json.str "hi")]) = "hi" ∧
    extractContent
        (Json.obj [("choices", Json.arr [Json.obj [("delta", Json.obj [("content", Json.str "x")])]])]) =
      "x" ∧
    agentExtractContent (Json.obj [("content", Json.str "hi")]) = "hi" ∧
    chatCompletionLineDeltas (("data: " ++ "\x7b\"a\":\"b\"\x7d") :: []) =
      chatCompletionLineDeltas [] ∧
    chatCompletionLineDeltas (("data: " ++ "\x7b\"content\":\"hi\"\x7d") :: []) =
      extractContent (Json.obj [("content", Json.str "hi")]) :: chatCompletionLineDeltas [] := by
  refine ⟨?_, ?_, ?_, ?_, ?_⟩
  · exact (c6_extraction_rules.1 (Json.obj [("content", Json.str "hi")]) (by decide)).trans rfl
  · exact (c6_extraction_rules.2.1
      (Json.obj [("choices", Json.arr [Json.obj [("delta", Json.obj [("content", Json.str "x")])]])])
      rfl).trans rfl
  · exact c6_extraction_rules.2.2.1 (Json.obj [("content", Json.str "hi")])
  · exact c6_extraction_rules.2.2.2.1 "\x7b\"a\":\"b\"\x7d" (Json.obj [("a", Json.str "b")]) []
      rfl rfl
  · exact c6_extraction_rules.2.2.2.2 "\x7b\"content\":\"hi\"\x7d"
      (Json.obj [("content", Json.str "hi")]) [] rfl (by decide)

/-- C7: a record whose payload is malformed JSON is silently skipped by
all three stream decoders — the `try/catch` around `JSON.parse` turns it
into a no-op — and decoding continues with the remaining lines, so any
later valid delta is still delivered; the decoders are total functions,
so no input can make them raise. -/
theorem c7_malformed_record_skipped (bad : String) (rest : List String)
    (hparse : jsonParse bad = none) (hne : ¬bad = "[DONE]") :
    chatCompletionLineDeltas (("data: " ++ bad) :: rest) = chatCompletionLineDeltas rest ∧
    sendStreamingLineDeltas (("data: " ++ bad) :: rest) = sendStreamingLineDeltas rest ∧
    agentChatLineDeltas (("data: " ++ bad) :: rest) = agentChatLineDeltas rest := by
  refine ⟨?_, ?_, ?_⟩
  · rw [chatCompletion_step bad rest hne, hparse]
  · rw [sendStreaming_step bad rest hne, hparse]
  · rw [agentChat_step bad rest hne, hparse]

/-- Witness for C7: the malformed line `data: {not json` followed by a
valid delta record — the malformed line is skipped and `ok` is still
delivered by each decoder. -/
theorem c7_malformed_record_skipped_witness :
    chatCompletionLineDeltas (("data: " ++ "\x7bnot json") :: ["data: \x7b\"content\":\"ok\"\x7d"]) =
      ["ok"] ∧
    sendStreamingLineDeltas (("data: " ++ "\x7bnot json") :: ["data: \x7b\"content\":\"ok\"\x7d"]) =
      ["ok"] ∧
    agentChatLineDeltas (("data: " ++ "\x7bnot json") :: ["data: \x7b\"content\":\"ok\"\x7d"]) =
      ["ok"] := by
  have h := c7_malformed_record_skipped "\x7bnot json" ["data: \x7b\"content\":\"ok\"\x7d"]
    rfl (by decide)
  exact ⟨h.1.trans (by rfl), h.2.1.trans (by rfl), h.2.2.trans (by rfl)⟩

/-- The event handlers never produce a structured error action. -/
theorem eventActions_not_structured (e : StreamEvent) (a : ResAction)
    (h : a ∈ eventActions e) : isStructuredError a = false := by
  cases e <;> simp [eventActions] at h <;> rw [h] <;> rfl

/-- In the success trace of the streaming endpoint, no action is a
structured error action. -/
theorem streamHandler_success_not_structured (messages : Option Json)
    (events : List StreamEvent) (hval : messagesValid messages = true) (a : ResAction)
    (h : a ∈ (streamHandler messages (StreamUpstreamReply.success events)).1) :
    isStructuredError a = false := by
  simp only [streamHandler, hval, if_true] at h
  rcases List.mem_append.mp h with hh | ht
  · simp [sseHeaders] at hh
    rcases hh with h1 | h1 | h1 <;> rw [h1] <;> rfl
  · rcases List.mem_flatten.mp ht with ⟨l, hl, hal⟩
    rcases List.mem_map.mp hl with ⟨e, _, rfl⟩
    exact eventActions_not_structured e a hal

/-- No trace of the streaming endpoint contains a `res.write` unless the
upstream call succeeded. -/
theorem streamHandler_write_success (messages : Option Json)
    (upstream : StreamUpstreamReply) (d : String)
    (h : ResAction.write d ∈ (streamHandler messages upstream).1) :
    messagesValid messages = true ∧ ∃ events, upstream = StreamUpstreamReply.success events := by
  by_cases hval : messagesValid messages = true
  · cases upstream with
    | success events => exact ⟨hval, events, rfl⟩
    | httpError st ebody =>
      simp [streamHandler, hval, sseHeaders, streamCatchActions] at h
    | networkError =>
      simp [streamHandler, hval, sseHeaders, streamCatchActions] at h
  · simp [streamHandler, hval] at h

/-- C8: once a byte has been written to the client, no later action of
the streaming session is part of a structured JSON error response: a
mid-stream `error` event on the upstream byte source only closes the
response (`res.end()`), and the late-exception branch with headers
already sent likewise only closes it. -/
theorem c8_no_structured_error_after_first_byte :
    (∀ (messages : Option Json) (upstream : StreamUpstreamReply) (i j : Nat)
        (d : String) (a : ResAction), i < j →
      (streamHandler messages upstream).1[i]? = some (ResAction.write d) →
      (streamHandler messages upstream).1[j]? = some a →
      isStructuredError a = false) ∧
    eventActions StreamEvent.errored = [ResAction.closeResponse] ∧
    streamCatchActions true = [ResAction.closeResponse] := by
  refine ⟨?_, rfl, rfl⟩
  intro messages upstream i j d a _ hi hj
  obtain ⟨hval, events, rfl⟩ :=
    streamHandler_write_success messages upstream d (List.getElem?_mem hi)
  exact streamHandler_success_not_structured messages events hval a (List.getElem?_mem hj)

/-- Witness for C8: a session that writes one chunk and then hits a
mid-stream error closes the response, which is not a structured error. -/
theorem c8_witness : isStructuredError ResAction.closeResponse = false :=
  c8_no_structured_error_after_first_byte.1 (some (Json.arr []))
    (StreamUpstreamReply.success [StreamEvent.chunk "data: x\n", StreamEvent.errored])
    3 4 "data: x\n" ResAction.closeResponse (by decide) (by rfl) (by rfl)

/-- The event handlers never set a header. -/
theorem eventActions_no_setHeader (e : StreamEvent) (n v : String) :
    ResAction.setHeader n v ∉ eventActions e := by
  cases e <;> simp [eventActions]

/-- C9: on a successful streaming session the three transport headers —
`Content-Type: text/event-stream`, `Cache-Control: no-cache`,
`Connection: keep-alive` — are the first three actions of the trace, and
every `setHeader` action precedes every `write` action. -/
theorem c9_headers_before_first_write (messages : Option Json) (events : List StreamEvent)
    (hval : messagesValid messages = true) :
    (streamHandler messages (StreamUpstreamReply.success events)).1.take 3 = sseHeaders ∧
    (∀ (i j : Nat) (n v d : String),
      (streamHandler messages (StreamUpstreamReply.success events)).1[i]? =
        some (ResAction.setHeader n v) →
      (streamHandler messages (StreamUpstreamReply.success events)).1[j]? =
        some (ResAction.write d) →
      i < j) := by
  constructor
  · simp only [streamHandler, hval, if_true]
    exact List.take_left sseHeaders ((events.map eventActions).flatten)
  · intro i j n v d hi hj
    simp only [streamHandler, hval, if_true] at hi hj
    have hi3 : i < 3 := by
      by_contra hge
      push_neg at hge
      rw [List.getElem?_append_right hge] at hi
      rcases List.mem_flatten.mp (List.getElem?_mem hi) with ⟨l, hl, hal⟩
      rcases List.mem_map.mp hl with ⟨e, _, rfl⟩
      exact eventActions_no_setHeader e n v hal
    have hj3 : 3 ≤ j := by
      by_contra hlt
      push_neg at hlt
      rw [List.getElem?_append_left (show j < sseHeaders.length from hlt)] at hj
      have := List.getElem?_mem hj
      simp [sseHeaders] at this
    exact lt_of_lt_of_le hi3 hj3

/-- Witness for C9 at a concrete session. -/
theorem c9_witness :
    (streamHandler (some (Json.arr []))
        (StreamUpstreamReply.success [StreamEvent.chunk "data: hi\n", StreamEvent.finished])).1.take 3 =
      sseHeaders ∧ (0 : Nat) < 3 := by
  have h := c9_headers_before_first_write (some (Json.arr []))
    [StreamEvent.chunk "data: hi\n", StreamEvent.finished] rfl
  exact ⟨h.1, h.2 0 3 "Content-Type" "text/event-stream" "data: hi\n" rfl rfl⟩

/-- The data chunks carried by a list of stream events, in order. -/
def dataChunksOf : List StreamEvent → List String
  | [] => []
  | StreamEvent.chunk d :: rest => d :: dataChunksOf rest
  | StreamEvent.finished :: rest => dataChunksOf rest
  | StreamEvent.errored :: rest => dataChunksOf rest

/-- The writes the event handlers perform are exactly the data chunks. -/
theorem writesOf_eventActions (events : List StreamEvent) :
    writesOf ((events.map eventActions).flatten) = dataChunksOf events := by
  induction events with
  | nil => rfl
  | cons e rest ih => cases e <;> simp [eventActions, writesOf, dataChunksOf, ih]

/-- A stream of data chunks followed by `end` carries exactly those
chunks. -/
theorem dataChunksOf_chunks (chunks : List String) :
    dataChunksOf (chunks.map StreamEvent.chunk ++ [StreamEvent.finished]) = chunks := by
  induction chunks with
  | nil => rfl
  | cons c cs ih => simp [dataChunksOf, ih]

/-- The writes of a successful streaming session are exactly the upstream
chunks, forwarded verbatim. -/
theorem streamHandler_writes (messages : Option Json) (events : List StreamEvent)
    (hval : messagesValid messages = true) :
    writesOf (streamHandler messages (StreamUpstreamReply.success events)).1 =
      dataChunksOf events := by
  simp only [streamHandler, hval, if_true]
  rw [writesOf_append]
  rw [writesOf_eventActions]
  rfl

/-- Looking up `content` in the buffered success response body finds the
extracted content (the later `model` and optional `usage` entries have
different keys). -/
theorem respBody_content (v : Json) (m : String) (body : Json) :
    Json.getField (Json.obj ([("content", v)] ++ [("model", Json.str m)] ++ usageField body))
      "content" = some v := by
  unfold usageField
  cases h : body.getField "usage" <;> rfl

/-- C1: with a deterministic stub upstream — one completion `c`, served
buffered as `choices[0].message.content = c` and streamed as SSE chunks
whose decoded deltas concatenate to `c` — the buffered endpoint returns
`content = c`; the streaming endpoint forwards the chunks verbatim, so the
deltas the client decodes from the streamed bytes concatenate to the same
`c`; and the streamed content is monotonic: each write only appends. -/
theorem c1_streaming_agrees_with_buffered (messages : Option Json)
    (reqModel : Option String) (body : Json) (chunks : List String) (c : String)
    (hval : messagesValid messages = true)
    (hbuf : bufferedExtract body = some (some (Json.str c)))
    (hdet : strConcat (chatCompletionStreamDeltas chunks) = c) :
    ((chatHandler messages reqModel (UpstreamReply.success body)).1.status = 200 ∧
     Json.getField (chatHandler messages reqModel (UpstreamReply.success body)).1.body
       "content" = some (Json.str c)) ∧
    (writesOf (streamHandler messages (StreamUpstreamReply.success
        (chunks.map StreamEvent.chunk ++ [StreamEvent.finished]))).1 = chunks ∧
     strConcat (chatCompletionStreamDeltas (writesOf (streamHandler messages
        (StreamUpstreamReply.success
          (chunks.map StreamEvent.chunk ++ [StreamEvent.finished]))).1)) = c) ∧
    (∀ k : Nat, ∃ t,
      strConcat ((writesOf (streamHandler messages (StreamUpstreamReply.success
        (chunks.map StreamEvent.chunk ++ [StreamEvent.finished]))).1).take (k + 1)) =
      strConcat ((writesOf (streamHandler messages (StreamUpstreamReply.success
        (chunks.map StreamEvent.chunk ++ [StreamEvent.finished]))).1).take k) ++ t) := by
  have hw : writesOf (streamHandler messages (StreamUpstreamReply.success
      (chunks.map StreamEvent.chunk ++ [StreamEvent.finished]))).1 = chunks :=
    (streamHandler_writes messages _ hval).trans (dataChunksOf_chunks chunks)
  refine ⟨⟨?_, ?_⟩, ⟨hw, ?_⟩, ?_⟩
  · simp [chatHandler, hval, hbuf]
  · simp only [chatHandler, hval, if_true, hbuf]
    exact respBody_content (Json.str c) (respModel body reqModel) body
  · rw [hw]
    exact hdet
  · intro k
    exact strConcat_take_succ _ k

/-- Witness for C1: stub completion `Hello`, streamed as the deltas `Hel`
and `lo` over two chunks. -/
theorem c1_witness :
    ((chatHandler (some (Json.arr [Json.obj [("role", Json.str "user"), ("content", Json.str "hi")]]))
        none (UpstreamReply.success (Json.obj [("choices", Json.arr
          [Json.obj [("message", Json.obj [("content", Json.str "Hello")])]])]))).1.status = 200 ∧
     Json.getField (chatHandler (some (Json.arr [Json.obj [("role", Json.str "user"), ("content", Json.str "hi")]]))
        none (UpstreamReply.success (Json.obj [("choices", Json.arr
          [Json.obj [("message", Json.obj [("content", Json.str "Hello")])]])]))).1.body
       "content" = some (Json.str "Hello")) ∧
    (writesOf (streamHandler (some (Json.arr [Json.obj [("role", Json.str "user"), ("content", Json.str "hi")]]))
        (StreamUpstreamReply.success
          ((["data: \x7b\"content\":\"Hel\"\x7d\n",
             "data: \x7b\"content\":\"lo\"\x7d\ndata: [DONE]\n"].map StreamEvent.chunk) ++
            [StreamEvent.finished]))).1 =
      ["data: \x7b\"content\":\"Hel\"\x7d\n", "data: \x7b\"content\":\"lo\"\x7d\ndata: [DONE]\n"] ∧
     strConcat (chatCompletionStreamDeltas (writesOf (streamHandler
        (some (Json.arr [Json.obj [("role", Json.str "user"), ("content", Json.str "hi")]]))
        (StreamUpstreamReply.success
          ((["data: \x7b\"content\":\"Hel\"\x7d\n",
             "data: \x7b\"content\":\"lo\"\x7d\ndata: [DONE]\n"].map StreamEvent.chunk) ++
            [StreamEvent.finished]))).1)) = "Hello") ∧
    (∃ t, strConcat ((writesOf (streamHandler
        (some (Json.arr [Json.obj [("role", Json.str "user"), ("content", Json.str "hi")]]))
        (StreamUpstreamReply.success
          ((["data: \x7b\"content\":\"Hel\"\x7d\n",
             "data: \x7b\"content\":\"lo\"\x7d\ndata: [DONE]\n"].map StreamEvent.chunk) ++
            [StreamEvent.finished]))).1).take 1) =
      strConcat ((writesOf (streamHandler
        (some (Json.arr [Json.obj [("role", Json.str "user"), ("content", Json.str "hi")]]))
        (StreamUpstreamReply.success
          ((["data: \x7b\"content\":\"Hel\"\x7d\n",
             "data: \x7b\"content\":\"lo\"\x7d\ndata: [DONE]\n"].map StreamEvent.chunk) ++
            [StreamEvent.finished]))).1).take 0) ++ t) := by
  have h := c1_streaming_agrees_with_buffered
    (some (Json.arr [Json.obj [("role", Json.str "user"), ("content", Json.str "hi")]]))
    none
    (Json.obj [("choices", Json.arr [Json.obj [("message", Json.obj [("content", Json.str "Hello")])]])])
    ["data: \x7b\"content\":\"Hel\"\x7d\n", "data: \x7b\"content\":\"lo\"\x7d\ndata: [DONE]\n"]
    "Hello" rfl rfl rfl
  exact ⟨h.1, h.2.1, h.2.2 0⟩
